import Mathlib

/-
Verification development for the Telegram session-manager bot (src/tg.py).
The definitions below are a shallow embedding of the decision logic of the
program: the OTP-extraction matcher of get_telegram_messages, the session
validator validate_session, the account registry (load_saved_sessions,
save_sessions, the dict upsert performed by process_zip_file), the ZIP
ingestion pipeline process_zip_file, and the admin gating of the message
and callback handlers.  Strings are modelled as lists of characters;
network effects are modelled by explicit behaviour parameters and oracles.
-/

set_option maxRecDepth 8000

namespace Tg

/-! ## Character utilities (ASCII model of Python str.lower, whitespace, digits) -/

/-- Model of Python lower-casing restricted to ASCII letters, which is all the
source patterns and keywords use. -/
def asciiLower (c : Char) : Char :=
  if 65 ≤ c.toNat && c.toNat ≤ 90 then Char.ofNat (c.toNat + 32) else c

def lowerList (cs : List Char) : List Char := cs.map asciiLower

/-- Whitespace as matched by the regex class in the source patterns. -/
def isPySpace (c : Char) : Bool :=
  c = ' ' || c = '\t' || c = '\n' || c = '\r'

/-- Case-insensitive character comparison (re.IGNORECASE). -/
def charEqCI (a b : Char) : Bool := asciiLower a = asciiLower b

/-- Python substring containment (`needle in haystack`). -/
def isSubstr (needle : List Char) : List Char → Bool
  | [] => needle.isEmpty
  | c :: rest => needle.isPrefixOf (c :: rest) || isSubstr needle rest

/-! ## The OTP regular expressions of get_telegram_messages (src/tg.py lines 585-592)

Every pattern in the source has the shape
  literal  ':?'  whitespace-star  capture-of-5-to-6-digits
(the bare fallback pattern has an empty token list).  The optional colon can
be matched deterministically here: when a colon is present, skipping it would
require a digit or whitespace at the colon position, which fails, so the
greedy choice of the regex engine is the only viable one. -/

inductive PatTok where
  | lit : List Char → PatTok
  | optColon : PatTok
  | ws : PatTok
deriving DecidableEq

/-- Match a case-insensitive literal at the head of the text, returning the
remaining text. -/
def litMatch : List Char → List Char → Option (List Char)
  | [], cs => some cs
  | _ :: _, [] => none
  | l :: ls, c :: cs => if charEqCI l c then litMatch ls cs else none

/-- Consume the token list at the head of the text. -/
def matchToks : List PatTok → List Char → Option (List Char)
  | [], cs => some cs
  | PatTok.lit l :: rest, cs => (litMatch l cs).bind (matchToks rest)
  | PatTok.optColon :: rest, cs =>
    match cs with
    | ':' :: cs2 => matchToks rest cs2
    | _ => matchToks rest cs
  | PatTok.ws :: rest, cs => matchToks rest (cs.dropWhile isPySpace)

/-- Greedy capture of `(\d{5,6})`: at least five digits must follow, and the
capture group takes at most six of them. -/
def captureDigits (cs : List Char) : Option (List Char) :=
  let run := cs.takeWhile Char.isDigit
  if 5 ≤ run.length then some (run.take 6) else none

/-- Whole-pattern match anchored at the current position. -/
def matchPatAt (toks : List PatTok) (cs : List Char) : Option (List Char) :=
  (matchToks toks cs).bind captureDigits

/-- re.search: leftmost position at which the whole pattern matches. -/
def searchToks (toks : List PatTok) : List Char → Option (List Char)
  | [] => matchPatAt toks []
  | c :: cs =>
    match matchPatAt toks (c :: cs) with
    | some r => some r
    | none => searchToks toks cs

def patLoginCode : List PatTok :=
  [PatTok.lit ("Your login code".toList), PatTok.optColon, PatTok.ws]

def patKodeMasuk : List PatTok :=
  [PatTok.lit ("Kode masuk Anda".toList), PatTok.optColon, PatTok.ws]

def patYourCode : List PatTok :=
  [PatTok.lit ("Your code".toList), PatTok.optColon, PatTok.ws]

def patKode : List PatTok :=
  [PatTok.lit ("Kode".toList), PatTok.optColon, PatTok.ws]

def patCode : List PatTok :=
  [PatTok.lit ("code".toList), PatTok.optColon, PatTok.ws]

/-- The generic bare-digit fallback pattern `(\d{5,6})`. -/
def patBare : List PatTok := []

/-- The ordered pattern list; the flag marks the one pattern for which the
source applies the corroborating-keyword gate (the bare-digit fallback,
recognised in the source by string equality with the raw pattern). -/
def otpPatterns : List (List PatTok × Bool) :=
  [(patLoginCode, false), (patKodeMasuk, false), (patYourCode, false),
   (patKode, false), (patCode, false), (patBare, true)]

/-- The corroborating keyword list of the source (src/tg.py lines 620-621).
The terms are already lower-case, and the check lowers the message text. -/
def otpTerms : List (List Char) :=
  ["code".toList, "telegram".toList, "login".toList, "verification".toList,
   "kode".toList, "masuk".toList, "verifikasi".toList]

/-- Modelled from the spec: the corroborating keyword set as the spec text and
claim C1 state it; it additionally lists the term otp, which the keyword list
in the source does not contain. -/
def claimedOtpTerms : List (List Char) :=
  ["code".toList, "telegram".toList, "login".toList, "verification".toList,
   "otp".toList, "kode".toList, "masuk".toList, "verifikasi".toList]

def hasOtpTerm (content : List Char) : Bool :=
  otpTerms.any (fun t => isSubstr t (lowerList content))

/-- Keyword check of claim C1 (with the 8-term set of the spec). -/
def hasClaimedOtpTerm (content : List Char) : Bool :=
  claimedOtpTerms.any (fun t => isSubstr t (lowerList content))

/-- The per-message pattern loop of get_telegram_messages (lines 613-632):
first matching pattern wins; a bare-digit match without a corroborating
keyword is skipped (the `continue` in the source). -/
def tryPatterns (content : List Char) : List (List PatTok × Bool) → Option (List Char)
  | [] => none
  | (toks, isBare) :: rest =>
    match searchToks toks content with
    | none => tryPatterns content rest
    | some code =>
      if isBare && !(hasOtpTerm content) then tryPatterns content rest
      else some code

def processMessage (content : List Char) : Option (List Char) :=
  tryPatterns content otpPatterns

/-! ## Message scanning of get_telegram_messages (lines 580-637)

A service message is modelled as an optional text plus a timestamp; the
entries of the fetched list may themselves be absent (`if msg and
msg.message`).  The time formatting of the source only renders the
timestamp, so the extraction result carries the timestamp itself. -/

structure SvcMsg where
  text : Option (List Char)
  date : Nat
deriving DecidableEq

/-- One scanned message: the per-message guard of the source
(`if msg and msg.message`, with empty text falsy) followed by the pattern
loop. -/
def messageOtp : Option SvcMsg → Option (List Char)
  | none => none
  | some m =>
    match m.text with
    | none => none
    | some content => if content.isEmpty then none else processMessage content

def scanMessages (latestOnly : Bool) : List (Option SvcMsg) → List (List Char × Nat)
  | [] => []
  | om :: rest =>
    match om with
    | none => scanMessages latestOnly rest
    | some m =>
      match m.text with
      | none => scanMessages latestOnly rest
      | some content =>
        if content.isEmpty then scanMessages latestOnly rest
        else
          match processMessage content with
          | none => scanMessages latestOnly rest
          | some code =>
            (code, m.date) :: (if latestOnly then [] else scanMessages latestOnly rest)

/-- Outcome of the message-scanning part of get_telegram_messages: either a
non-empty list of extracted codes, or the fixed no-OTP reply (the service
chat is assumed resolved; its lookup is an external call). -/
inductive OtpOutput where
  | codes : List (List Char × Nat) → OtpOutput
  | noOtpMessage : OtpOutput
deriving DecidableEq

/-- get_telegram_messages, lines 580-637: fetch limit 3 when latest-only else
10, scan the fetched messages in order (most recent first per the client
contract), and fall back to the no-OTP reply when nothing was extracted. -/
def getTelegramMessages (history : List (Option SvcMsg)) (latestOnly : Bool) : OtpOutput :=
  let limit := if latestOnly then 3 else 10
  let results := scanMessages latestOnly (history.take limit)
  if results.isEmpty then OtpOutput.noOtpMessage else OtpOutput.codes results

/-! ## Session validator validate_session (src/tg.py lines 365-400) -/

structure VIdent where
  user_id : List Char
  phone : List Char
  username : List Char
  first_name : List Char
  last_name : List Char
deriving DecidableEq

/-- The three result-dict shapes returned by validate_session. -/
inductive Verdict where
  | invalid
  | requiresSecondFactor
  | valid : VIdent → Verdict
deriving DecidableEq

/-- Raw identity as returned by get_me; the optional fields carry the source
defaults (`or` expressions) applied by validate_session. -/
structure RawMe where
  id : List Char
  phone : List Char
  username : Option (List Char)
  first_name : Option (List Char)
  last_name : Option (List Char)
deriving DecidableEq

inductive ConnectStep where
  | ok
  | exn
deriving DecidableEq

inductive AuthStep where
  | authorized
  | notAuthorized
  | exn
deriving DecidableEq

inductive GetMeStep where
  | ok : RawMe → GetMeStep
  | passwordNeeded
  | exn
deriving DecidableEq

/-- Behaviour of the network during one validate_session call: what connect,
is_user_authorized, and get_me do. -/
structure SessionBehavior where
  connect : ConnectStep
  authCheck : AuthStep
  getMe : GetMeStep
deriving DecidableEq

/-- validate_session: the returned verdict together with whether disconnect
was called before returning.  An exception anywhere in the body is caught by
the outer handler, which returns the invalid dict; the handler contains no
disconnect call. -/
def validateSession (b : SessionBehavior) : Verdict × Bool :=
  match b.connect with
  | ConnectStep.exn => (Verdict.invalid, false)
  | ConnectStep.ok =>
    match b.authCheck with
    | AuthStep.exn => (Verdict.invalid, false)
    | AuthStep.notAuthorized => (Verdict.invalid, true)
    | AuthStep.authorized =>
      match b.getMe with
      | GetMeStep.passwordNeeded => (Verdict.requiresSecondFactor, true)
      | GetMeStep.exn => (Verdict.invalid, false)
      | GetMeStep.ok me =>
        (Verdict.valid
          ⟨me.id, me.phone, me.username.getD ("None".toList),
           me.first_name.getD ("Unknown".toList), me.last_name.getD []⟩, true)

/-! ## Account registry (load_saved_sessions, save_sessions, dict upsert) -/

structure AccountRecord where
  session_path : List Char
  phone : List Char
  username : List Char
  user_id : List Char
  first_name : List Char
  last_name : List Char
  validated_at : List Char
deriving DecidableEq

/-- The in-memory registry self.valid_sessions: an insertion-ordered map,
modelled as an association list with unique keys. -/
abbrev Registry := List (List Char × AccountRecord)

/-- os.path.join(self.sessions_dir, user_id + ".session"). -/
def sessionPath (dir uid : List Char) : List Char :=
  dir ++ '/' :: (uid ++ ".session".toList)

/-- One persisted record of accounts.json: phone and username are accessed
with mandatory lookups, the remaining fields with defaulted lookups. -/
structure StoreRecord where
  phone : List Char
  username : List Char
  first_name : Option (List Char)
  last_name : Option (List Char)
  validated_at : Option (List Char)
deriving DecidableEq

/-- Content of the durable store as seen by load_saved_sessions: the file may
be absent, unparsable, or a parsed key-record mapping (insertion ordered). -/
inductive StoreContent where
  | missing
  | malformed
  | parsed : List (List Char × StoreRecord) → StoreContent
deriving DecidableEq

/-- Record construction of load_saved_sessions (lines 69-77). -/
def buildRecord (dir k : List Char) (d : StoreRecord) : AccountRecord :=
  ⟨sessionPath dir k, d.phone, d.username, k,
   d.first_name.getD ("Unknown".toList),
   d.last_name.getD [],
   d.validated_at.getD []⟩

inductive LoadError where
  | malformedStore
deriving DecidableEq

/-- The body of the try block of load_saved_sessions: parsing a malformed
store raises; otherwise each record whose session file exists on disk is
admitted, in store order. -/
def loadBody (dir : List Char) (store : StoreContent) (fileExists : List Char → Bool) :
    Except LoadError Registry :=
  match store with
  | StoreContent.missing => Except.ok []
  | StoreContent.malformed => Except.error LoadError.malformedStore
  | StoreContent.parsed recs =>
    Except.ok
      ((recs.filter (fun kr => fileExists (sessionPath dir kr.1))).map
        (fun kr => (kr.1, buildRecord dir kr.1 kr.2)))

/-- load_saved_sessions (lines 59-81): the catch-all handler logs any raised
error and returns normally; the Boolean records whether an error was caught
(logged).  The in-memory registry starts empty at construction time. -/
def loadSavedSessions (dir : List Char) (store : StoreContent)
    (fileExists : List Char → Bool) : Registry × Bool :=
  match loadBody dir store fileExists with
  | Except.ok r => (r, false)
  | Except.error _ => ([], true)

/-- Per-entry serialization of save_sessions (lines 86-94). -/
def storeEntry (kr : List Char × AccountRecord) : List Char × StoreRecord :=
  (kr.1, ⟨kr.2.phone, kr.2.username, some kr.2.first_name,
          some kr.2.last_name, some kr.2.validated_at⟩)

/-- save_sessions: full rewrite of the durable store from the in-memory map,
in map order. -/
def saveSessions (reg : Registry) : StoreContent :=
  StoreContent.parsed (reg.map storeEntry)

/-- Lookup in the registry by account id. -/
def lookupReg : Registry → List Char → Option AccountRecord
  | [], _ => none
  | kr :: rest, k => if kr.1 = k then some kr.2 else lookupReg rest k

/-- Python dict assignment `self.valid_sessions[k] = r`: replace in place when
the key exists, append otherwise. -/
def upsert : Registry → List Char → AccountRecord → Registry
  | [], k, r => [(k, r)]
  | kr :: rest, k, r =>
    if kr.1 = k then (k, r) :: rest else kr :: upsert rest k r

/-- int(user_id) for the numeric display sort (keys are digit strings). -/
def natOfDigits (cs : List Char) : Nat :=
  cs.foldl (fun acc c => acc * 10 + (c.toNat - 48)) 0

def insertSorted (x : List Char × AccountRecord) :
    List (List Char × AccountRecord) → List (List Char × AccountRecord)
  | [] => [x]
  | y :: ys =>
    if natOfDigits x.1 ≤ natOfDigits y.1 then x :: y :: ys
    else y :: insertSorted x ys

/-- The account listing of show_accounts (line 420): records ordered by
ascending numeric account id. -/
def listAccounts (reg : Registry) : List (List Char × AccountRecord) :=
  reg.foldr insertSorted []

/-! ## Ingestion pipeline process_zip_file (src/tg.py lines 219-322) -/

structure RunSummary where
  valid : Nat
  skipped2fa : Nat
  invalid : Nat
deriving DecidableEq

/-- The record stored for a freshly validated account (lines 303-314); the
session file is copied to the canonical work path keyed by user id. -/
def mkRecord (dir now : List Char) (id : VIdent) : AccountRecord :=
  ⟨sessionPath dir id.user_id, id.phone, id.username, id.user_id,
   id.first_name, id.last_name, now⟩

def is2faVerdict : Verdict → Bool
  | Verdict.requiresSecondFactor => true
  | _ => false

def isInvalidVerdict : Verdict → Bool
  | Verdict.invalid => true
  | _ => false

/-- The validation loop of process_zip_file (lines 279-319): sequential
classification of each candidate file, with a registry upsert on every fully
valid verdict.  The oracle stands for the awaited validate_session call. -/
def processBatch (oracle : List Char → Verdict) (dir now : List Char) :
    List (List Char) → Registry → RunSummary × Registry
  | [], reg => (⟨0, 0, 0⟩, reg)
  | f :: fs, reg =>
    match oracle f with
    | Verdict.valid id =>
      let rest := processBatch oracle dir now fs (upsert reg id.user_id (mkRecord dir now id))
      (⟨rest.1.valid + 1, rest.1.skipped2fa, rest.1.invalid⟩, rest.2)
    | Verdict.requiresSecondFactor =>
      let rest := processBatch oracle dir now fs reg
      (⟨rest.1.valid, rest.1.skipped2fa + 1, rest.1.invalid⟩, rest.2)
    | Verdict.invalid =>
      let rest := processBatch oracle dir now fs reg
      (⟨rest.1.valid, rest.1.skipped2fa, rest.1.invalid + 1⟩, rest.2)

/-- The directory test of the os.walk loop (line 243), both separator
conventions. -/
def isSessionsUsersDir (d : List Char) : Bool :=
  ("sessions/users".toList).isSuffixOf d || ("sessions\\users".toList).isSuffixOf d

/-- First walked directory whose path ends in sessions/users, with its file
listing (lines 241-245). -/
def findSessionsPath :
    List (List Char × List (List Char)) → Option (List Char × List (List Char))
  | [] => none
  | (d, fs) :: rest =>
    if isSessionsUsersDir d then some (d, fs) else findSessionsPath rest

def joinPath (a b : List Char) : List Char := a ++ '/' :: b

inductive ZipOutcome where
  | layoutError
  | emptyBatch
  | completed : RunSummary → ZipOutcome
deriving DecidableEq

/-- process_zip_file after extraction (lines 240-322): locate the
sessions/users directory, enumerate .session files, validate sequentially,
then persist the registry.  The Boolean of the result records whether
save_sessions was invoked. -/
def processZipFile (walk : List (List Char × List (List Char)))
    (oracle : List Char → Verdict) (dir now : List Char) (reg : Registry) :
    ZipOutcome × Registry × Bool :=
  match findSessionsPath walk with
  | none => (ZipOutcome.layoutError, reg, false)
  | some (spath, files) =>
    let sessionFiles := files.filter (fun f => (".session".toList).isSuffixOf f)
    if sessionFiles.isEmpty then (ZipOutcome.emptyBatch, reg, false)
    else
      let r := processBatch oracle dir now (sessionFiles.map (joinPath spath)) reg
      (ZipOutcome.completed r.1, r.2, true)

/-! ## Admin gating of the handlers (src/tg.py lines 41-57, 107-186) -/

inductive BotAction where
  | respondDenial
  | answerDenialAlert
  | respondWelcome
  | showAccounts
  | showBotInfo
  | processZipUpload
  | showAccountInfo : List Char → BotAction
  | getOtp : List Char → BotAction
  | clearChats : List Char → BotAction
  | checkSessions : List Char → BotAction
  | killAllSessions : List Char → BotAction
  | leaveGroups : List Char → BotAction
deriving DecidableEq

/-- Python str.split on one separator character. -/
def splitOnChar (sep : Char) : List Char → List (List Char)
  | [] => [[]]
  | c :: cs =>
    let r := splitOnChar sep cs
    if c = sep then [] :: r
    else
      match r with
      | [] => [[c]]
      | w :: ws => (c :: w) :: ws

/-- data.split("_")[1], the account id carried by a callback payload. -/
def callbackUid (data : List Char) : List Char :=
  (splitOnChar '_' data).getD 1 []

/-- is_admin: membership of the sender in the fixed allow-list. -/
def isAdminId (adminIds : List Int) (sender : Int) : Bool :=
  adminIds.contains sender

/-- start_handler (lines 107-131): admin gate, then welcome menu. -/
def startHandler (adminIds : List Int) (sender : Int) : List BotAction :=
  if isAdminId adminIds sender then [BotAction.respondWelcome]
  else [BotAction.respondDenial]

/-- accounts_handler (lines 133-137). -/
def accountsHandler (adminIds : List Int) (sender : Int) : List BotAction :=
  if isAdminId adminIds sender then [BotAction.showAccounts]
  else [BotAction.respondDenial]

/-- file_handler (lines 139-144): gate first, then process only ZIP
documents. -/
def fileHandler (adminIds : List Int) (sender : Int) (isZipDocument : Bool) :
    List BotAction :=
  if !(isAdminId adminIds sender) then [BotAction.respondDenial]
  else if isZipDocument then [BotAction.processZipUpload]
  else []

/-- callback_handler (lines 146-186): alert-denial gate, then dispatch by the
payload string. -/
def callbackHandler (adminIds : List Int) (sender : Int) (data : List Char) :
    List BotAction :=
  if !(isAdminId adminIds sender) then [BotAction.answerDenialAlert]
  else if data = "show_accounts".toList then [BotAction.showAccounts]
  else if data = "bot_info".toList then [BotAction.showBotInfo]
  else if ("acc_".toList).isPrefixOf data then [BotAction.showAccountInfo (callbackUid data)]
  else if ("getotp_".toList).isPrefixOf data then [BotAction.getOtp (callbackUid data)]
  else if ("clear_".toList).isPrefixOf data then [BotAction.clearChats (callbackUid data)]
  else if ("sessions_".toList).isPrefixOf data then [BotAction.checkSessions (callbackUid data)]
  else if ("killall_".toList).isPrefixOf data then [BotAction.killAllSessions (callbackUid data)]
  else if ("leavegroups_".toList).isPrefixOf data then [BotAction.leaveGroups (callbackUid data)]
  else if data = "back_accounts".toList then [BotAction.showAccounts]
  else if data = "back_main".toList then [BotAction.respondWelcome]
  else []

/-! ## Concrete inputs used by the witness theorems -/

def wIdent : VIdent :=
  ⟨"7".toList, "p1".toList, "u1".toList, "f1".toList, "l1".toList⟩

def wRec1 : AccountRecord :=
  ⟨sessionPath ("D".toList) ("5".toList), "p1".toList, "u1".toList,
   "5".toList, "f1".toList, "l1".toList, "t1".toList⟩

def wRec2 : AccountRecord :=
  ⟨sessionPath ("D".toList) ("8".toList), "p2".toList, "u2".toList,
   "8".toList, "f2".toList, "l2".toList, "t2".toList⟩

def wRec3 : AccountRecord :=
  ⟨sessionPath ("D".toList) ("5".toList), "p3".toList, "u3".toList,
   "5".toList, "f3".toList, "l3".toList, "t3".toList⟩

def wReg : Registry := [("5".toList, wRec1), ("8".toList, wRec2)]

def wStore1 : StoreRecord :=
  ⟨"p1".toList, "u1".toList, some ("f1".toList), some ("l1".toList), some ("t1".toList)⟩

def wStore2 : StoreRecord :=
  ⟨"p2".toList, "u2".toList, none, none, none⟩

def wRecs : List (List Char × StoreRecord) :=
  [("1".toList, wStore1), ("2".toList, wStore2)]

/-- File-existence oracle for the C3 witness: only the credential of account 1
is on disk. -/
def wFileExists (p : List Char) : Bool :=
  p == sessionPath [] ("1".toList)

def wAllExist (_ : List Char) : Bool := true

def wWalk : List (List Char × List (List Char)) :=
  [("root/other".toList, ["a.session".toList]),
   ("root/users".toList, ["b.session".toList])]

def wOracle (_ : List Char) : Verdict := Verdict.invalid

def c10History : List (Option SvcMsg) :=
  [some ⟨some ("hello there".toList), 1⟩,
   some ⟨none, 2⟩,
   none,
   some ⟨some ("Your login code: 48213".toList), 4⟩]

/-! ## Helper lemmas -/

theorem processBatch_counts (oracle : List Char → Verdict) (dir now : List Char) :
    ∀ (files : List (List Char)) (reg : Registry),
    (processBatch oracle dir now files reg).1.skipped2fa
      = files.countP (fun f => is2faVerdict (oracle f)) ∧
    (processBatch oracle dir now files reg).1.invalid
      = files.countP (fun f => isInvalidVerdict (oracle f)) ∧
    (processBatch oracle dir now files reg).1.valid
      + (processBatch oracle dir now files reg).1.skipped2fa
      + (processBatch oracle dir now files reg).1.invalid = files.length := by
  intro files
  induction files with
  | nil => intro reg; simp [processBatch]
  | cons f fs ih =>
    intro reg
    cases h : oracle f with
    | valid id =>
      have := ih (upsert reg id.user_id (mkRecord dir now id))
      simp [processBatch, h, List.countP_cons, is2faVerdict, isInvalidVerdict] at this ⊢
      omega
    | requiresSecondFactor =>
      have := ih reg
      simp [processBatch, h, List.countP_cons, is2faVerdict, isInvalidVerdict] at this ⊢
      omega
    | invalid =>
      have := ih reg
      simp [processBatch, h, List.countP_cons, is2faVerdict, isInvalidVerdict] at this ⊢
      omega

theorem findSessionsPath_eq_none (walk : List (List Char × List (List Char)))
    (h : ∀ e ∈ walk, isSessionsUsersDir e.1 = false) : findSessionsPath walk = none := by
  induction walk with
  | nil => rfl
  | cons e rest ih =>
    obtain ⟨d, fs⟩ := e
    have hd := h (d, fs) (by simp)
    simp only at hd
    simp [findSessionsPath, hd]
    exact ih (fun x hx => h x (List.mem_cons_of_mem _ hx))

theorem scan_none_of_all_none (lo : Bool) :
    ∀ (l : List (Option SvcMsg)), (∀ om ∈ l, messageOtp om = none) →
    scanMessages lo l = [] := by
  intro l
  induction l with
  | nil => intro _; rfl
  | cons om rest ih =>
    intro h
    have h0 := h om (by simp)
    have hr := ih (fun x hx => h x (by simp [hx]))
    cases om with
    | none => simpa [scanMessages] using hr
    | some m =>
      cases hm : m.text with
      | none => simp [scanMessages, hm, hr]
      | some content =>
        simp only [messageOtp, hm] at h0
        by_cases he : content.isEmpty
        · simp [scanMessages, hm, he, hr]
        · rw [if_neg he] at h0
          simp [scanMessages, hm, he, h0, hr]

theorem scan_latest_len : ∀ (l : List (Option SvcMsg)), (scanMessages true l).length ≤ 1 := by
  intro l
  induction l with
  | nil => simp [scanMessages]
  | cons om rest ih =>
    cases om with
    | none => simpa [scanMessages] using ih
    | some m =>
      cases hm : m.text with
      | none => simpa [scanMessages, hm] using ih
      | some content =>
        by_cases he : content.isEmpty
        · simpa [scanMessages, hm, he] using ih
        · cases hp : processMessage content
          · simpa [scanMessages, hm, he, hp] using ih
          · simp [scanMessages, hm, he, hp]

theorem upsert_keys_mem : ∀ (reg : Registry) (k : List Char) (r : AccountRecord)
    (m : List Char), m ∈ (upsert reg k r).map Prod.fst → m ∈ reg.map Prod.fst ∨ m = k := by
  intro reg k r
  induction reg with
  | nil =>
    intro m hm
    right
    simp only [upsert, List.map_cons, List.map_nil, List.mem_singleton] at hm
    exact hm
  | cons kr rest ih =>
    intro m hm
    simp only [upsert] at hm
    by_cases h : kr.1 = k
    · rw [if_pos h] at hm
      simp only [List.map_cons, List.mem_cons] at hm
      rcases hm with hm | hm
      · right; exact hm
      · left
        simp only [List.map_cons, List.mem_cons]
        right; exact hm
    · rw [if_neg h] at hm
      simp only [List.map_cons, List.mem_cons] at hm
      rcases hm with hm | hm
      · left
        simp only [List.map_cons, List.mem_cons]
        left; exact hm
      · rcases ih m hm with h2 | h2
        · left
          simp only [List.map_cons, List.mem_cons]
          right; exact h2
        · right; exact h2

theorem lookup_filtered_none (dir k : List Char) (fe : List Char → Bool)
    (hfe : fe (sessionPath dir k) = false) :
    ∀ (recs : List (List Char × StoreRecord)),
    lookupReg ((recs.filter (fun kr => fe (sessionPath dir kr.1))).map
      (fun kr => (kr.1, buildRecord dir kr.1 kr.2))) k = none := by
  intro recs
  induction recs with
  | nil => rfl
  | cons kd rest ih =>
    obtain ⟨k2, d⟩ := kd
    by_cases hc : fe (sessionPath dir k2) = true
    · have hne : ¬(k2 = k) := by
        intro he; rw [he] at hc; rw [hc] at hfe; exact Bool.noConfusion hfe
      simp [List.filter_cons, hc, lookupReg, hne, ih]
    · simp only [Bool.not_eq_true] at hc
      simp [List.filter_cons, hc, ih]

theorem build_store_inverse (dir k : List Char) (r : AccountRecord)
    (h1 : r.user_id = k) (h2 : r.session_path = sessionPath dir k) :
    buildRecord dir k (storeEntry (k, r)).2 = r := by
  cases r with
  | mk sp ph un ui fn ln va =>
    simp only at h1 h2
    subst h1
    subst h2
    rfl

theorem c7_roundtrip_aux (dir : List Char) (fe : List Char → Bool) :
    ∀ (l : Registry),
    (∀ kr ∈ l, kr.2.user_id = kr.1 ∧ kr.2.session_path = sessionPath dir kr.1) →
    (∀ kr ∈ l, fe (sessionPath dir kr.1) = true) →
    ((l.map storeEntry).filter (fun kr => fe (sessionPath dir kr.1))).map
      (fun kr => (kr.1, buildRecord dir kr.1 kr.2)) = l := by
  intro l
  induction l with
  | nil => intro _ _; rfl
  | cons kr rest ih =>
    intro hwf hfe
    obtain ⟨k, r⟩ := kr
    obtain ⟨h1, h2⟩ := hwf (k, r) (by simp)
    have hf : fe (sessionPath dir k) = true := hfe (k, r) (by simp)
    have ih2 := ih (fun x hx => hwf x (by simp [hx])) (fun x hx => hfe x (by simp [hx]))
    have hb := build_store_inverse dir k r h1 h2
    rw [List.map_cons, List.filter_cons]
    have hpred : (fun kr => fe (sessionPath dir kr.1)) (storeEntry (k, r)) = true := hf
    rw [if_pos hpred, List.map_cons, ih2]
    show (k, buildRecord dir k (storeEntry (k, r)).2) :: rest = (k, r) :: rest
    rw [hb]

/-! ## Claim theorems -/

/-- Claim C2 (code_bug): validate_session releases the connection on the
unauthorized, second-factor and success exits, but when an exception is
raised after connect (here: a non-2FA error during the identity fetch) the
catch-all handler returns the Invalid verdict without calling disconnect. -/
theorem c2_disconnect_skipped_on_exception :
    validateSession ⟨ConnectStep.ok, AuthStep.authorized, GetMeStep.exn⟩
      = (Verdict.invalid, false) ∧
    (validateSession ⟨ConnectStep.ok, AuthStep.notAuthorized, GetMeStep.exn⟩).2 = true ∧
    (validateSession ⟨ConnectStep.ok, AuthStep.authorized, GetMeStep.passwordNeeded⟩).2 = true ∧
    ∀ me : RawMe,
      (validateSession ⟨ConnectStep.ok, AuthStep.authorized, GetMeStep.ok me⟩).2 = true := by
  refine ⟨rfl, rfl, rfl, fun me => rfl⟩

/-- Claim C4 (confirmed): over any batch, the three counters of the run
summary sum to the number of candidate files, and the valid count equals the
batch size minus the second-factor-protected candidates minus the otherwise
invalid ones. -/
theorem c4_summary_counts (oracle : List Char → Verdict) (dir now : List Char)
    (files : List (List Char)) (reg : Registry) :
    (processBatch oracle dir now files reg).1.valid
      + (processBatch oracle dir now files reg).1.skipped2fa
      + (processBatch oracle dir now files reg).1.invalid = files.length ∧
    (processBatch oracle dir now files reg).1.valid
      = files.length - files.countP (fun f => is2faVerdict (oracle f))
        - files.countP (fun f => isInvalidVerdict (oracle f)) := by
  obtain ⟨h1, h2, h3⟩ := processBatch_counts oracle dir now files reg
  exact ⟨h3, by omega⟩

/-- Claim C5 (confirmed): when no extracted directory ends in sessions/users
under either separator convention, process_zip_file stops with the layout
error, the in-memory registry is returned unchanged, and save_sessions is
not invoked. -/
theorem c5_layout_error_registry_unchanged (walk : List (List Char × List (List Char)))
    (oracle : List Char → Verdict) (dir now : List Char) (reg : Registry)
    (h : ∀ e ∈ walk, isSessionsUsersDir e.1 = false) :
    processZipFile walk oracle dir now reg = (ZipOutcome.layoutError, reg, false) := by
  unfold processZipFile
  rw [findSessionsPath_eq_none walk h]

theorem c5_layout_error_registry_unchanged_witness :
    processZipFile wWalk wOracle [] [] [] = (ZipOutcome.layoutError, [], false) :=
  c5_layout_error_registry_unchanged wWalk wOracle [] [] [] (by decide)

/-- Claim C10 (confirmed): get_telegram_messages only ever examines the 3
most recent messages when latest-only is set (10 otherwise), so a code
present only in older messages is never found, and the reply is then the
no-OTP report rather than an error. -/
theorem c10_fetch_limit (history : List (Option SvcMsg)) (lo : Bool) :
    getTelegramMessages history lo
      = getTelegramMessages (history.take (if lo then 3 else 10)) lo ∧
    ((∀ om ∈ history.take 3, messageOtp om = none) →
      getTelegramMessages history true = OtpOutput.noOtpMessage) := by
  constructor
  · cases lo <;> simp [getTelegramMessages, List.take_take]
  · intro h
    have hs := scan_none_of_all_none true (history.take 3) h
    simp [getTelegramMessages, hs]

/-- Claim C1 (counterexample): the message "otp 12345" matches only the
bare-digit fallback pattern and contains the keyword otp from the set the
claim states, yet the matcher discards it, because the keyword list in the
source does not contain otp. -/
theorem c1_counterexample_otp_keyword :
    hasClaimedOtpTerm ("otp 12345".toList) = true ∧
    searchToks patLoginCode ("otp 12345".toList) = none ∧
    searchToks patKodeMasuk ("otp 12345".toList) = none ∧
    searchToks patYourCode ("otp 12345".toList) = none ∧
    searchToks patKode ("otp 12345".toList) = none ∧
    searchToks patCode ("otp 12345".toList) = none ∧
    searchToks patBare ("otp 12345".toList) = some ("12345".toList) ∧
    processMessage ("otp 12345".toList) = none := by
  decide

/-- Claim C1 (corrected): for a message matching only the bare-digit fallback
pattern, the match is accepted iff the text contains one of the seven keywords
code, telegram, login, verification, kode, masuk, verifikasi
(case-insensitively); otherwise it is discarded and the whole extraction
yields the no-OTP reply.  The spec additionally lists otp, which the source
keyword list omits. -/
theorem c1_bare_digit_keyword_gate (content : List Char) (t : Nat) (c : List Char)
    (h1 : searchToks patLoginCode content = none)
    (h2 : searchToks patKodeMasuk content = none)
    (h3 : searchToks patYourCode content = none)
    (h4 : searchToks patKode content = none)
    (h5 : searchToks patCode content = none)
    (h6 : searchToks patBare content = some c) :
    (hasOtpTerm content = true → processMessage content = some c) ∧
    (hasOtpTerm content = false →
      processMessage content = none ∧
      getTelegramMessages [some ⟨some content, t⟩] true = OtpOutput.noOtpMessage) := by
  have hne : ¬content.isEmpty = true := by
    intro he
    rw [List.isEmpty_iff] at he
    subst he
    rw [show searchToks patBare [] = none from rfl] at h6
    exact Option.noConfusion h6
  constructor
  · intro hk
    simp [processMessage, tryPatterns, otpPatterns, h1, h2, h3, h4, h5, h6, hk]
  · intro hk
    have hp : processMessage content = none := by
      simp [processMessage, tryPatterns, otpPatterns, h1, h2, h3, h4, h5, h6, hk]
    refine ⟨hp, ?_⟩
    simp [getTelegramMessages, scanMessages, hne, hp]

theorem c1_bare_digit_keyword_gate_witness :
    processMessage ("Call me at 481234".toList) = none ∧
    getTelegramMessages [some ⟨some ("Call me at 481234".toList), 0⟩] true
      = OtpOutput.noOtpMessage :=
  (c1_bare_digit_keyword_gate ("Call me at 481234".toList) 0 ("481234".toList)
    (by decide) (by decide) (by decide) (by decide) (by decide) (by decide)).2 (by decide)

/-- Claim C3 (counterexample): on malformed store content the load routine
does not fail: the parse error raised inside the body is absorbed by the
catch-all handler, which logs it and returns normally with the registry left
empty. -/
theorem c3_counterexample_malformed_store :
    loadBody [] StoreContent.malformed wAllExist
      = Except.error LoadError.malformedStore ∧
    loadSavedSessions [] StoreContent.malformed wAllExist = ([], true) :=
  ⟨rfl, rfl⟩

/-- Claim C3 (corrected): load never fails: malformed store content is caught
and logged (the registry stays empty), and for well-formed content a record
whose credential file is missing is silently omitted while every record whose
credential file exists is admitted. -/
theorem c3_load_never_raises (dir : List Char) (fe : List Char → Bool)
    (recs : List (List Char × StoreRecord)) (k : List Char) (d : StoreRecord) :
    loadSavedSessions dir StoreContent.malformed fe = ([], true) ∧
    (loadSavedSessions dir (StoreContent.parsed recs) fe).2 = false ∧
    ((k, d) ∈ recs → fe (sessionPath dir k) = true →
      (k, buildRecord dir k d) ∈ (loadSavedSessions dir (StoreContent.parsed recs) fe).1) ∧
    (fe (sessionPath dir k) = false →
      lookupReg (loadSavedSessions dir (StoreContent.parsed recs) fe).1 k = none) := by
  refine ⟨rfl, rfl, ?_, ?_⟩
  · intro hmem hfe
    simp only [loadSavedSessions, loadBody]
    exact List.mem_map_of_mem _ (List.mem_filter.mpr ⟨hmem, by simpa using hfe⟩)
  · intro hfe
    simp only [loadSavedSessions, loadBody]
    exact lookup_filtered_none dir k fe hfe recs

theorem c3_load_never_raises_witness :
    loadSavedSessions [] StoreContent.malformed wFileExists = ([], true) ∧
    ("1".toList, buildRecord [] ("1".toList) wStore1)
      ∈ (loadSavedSessions [] (StoreContent.parsed wRecs) wFileExists).1 ∧
    lookupReg (loadSavedSessions [] (StoreContent.parsed wRecs) wFileExists).1
      ("2".toList) = none := by
  refine ⟨(c3_load_never_raises [] wFileExists wRecs ("1".toList) wStore1).1, ?_, ?_⟩
  · exact (c3_load_never_raises [] wFileExists wRecs ("1".toList) wStore1).2.2.1
      (by decide) (by decide)
  · exact (c3_load_never_raises [] wFileExists wRecs ("2".toList) wStore2).2.2.2
      (by decide)

/-- Claim C6 (confirmed): upserting a credential whose account id is already
registered keeps the key set duplicate-free, does not grow the registry, and
replaces the record stored under that id (identity fields and validated_at
included, last-validated-wins). -/
theorem c6_upsert_replaces_unique (reg : Registry) (k : List Char) (r : AccountRecord)
    (h : (reg.map Prod.fst).Nodup) :
    ((upsert reg k r).map Prod.fst).Nodup ∧
    (k ∈ reg.map Prod.fst →
      (upsert reg k r).length = reg.length ∧
      lookupReg (upsert reg k r) k = some r) := by
  induction reg with
  | nil =>
    refine ⟨by simp [upsert], ?_⟩
    intro hk
    simp at hk
  | cons kr rest ih =>
    rw [List.map_cons, List.nodup_cons] at h
    obtain ⟨hhead, htail⟩ := h
    by_cases hk : kr.1 = k
    · constructor
      · simp only [upsert, if_pos hk, List.map_cons, List.nodup_cons]
        exact ⟨by rw [← hk]; exact hhead, htail⟩
      · intro _
        constructor
        · simp [upsert, hk]
        · simp [upsert, hk, lookupReg]
    · have ihr := ih htail
      constructor
      · simp only [upsert, if_neg hk, List.map_cons, List.nodup_cons]
        refine ⟨?_, ihr.1⟩
        intro hmem
        rcases upsert_keys_mem rest k r kr.1 hmem with h2 | h2
        · exact hhead h2
        · exact hk h2
      · intro hmem
        rw [List.map_cons, List.mem_cons] at hmem
        rcases hmem with hmem | hmem
        · exact absurd hmem.symm hk
        · obtain ⟨hlen, hlook⟩ := ihr.2 hmem
          constructor
          · simp [upsert, hk, hlen]
          · simp [upsert, hk, lookupReg, hlook]

theorem c6_upsert_replaces_unique_witness :
    ((upsert wReg ("5".toList) wRec3).map Prod.fst).Nodup ∧
    (upsert wReg ("5".toList) wRec3).length = wReg.length ∧
    lookupReg (upsert wReg ("5".toList) wRec3) ("5".toList) = some wRec3 := by
  have h := c6_upsert_replaces_unique wReg ("5".toList) wRec3 (by decide)
  exact ⟨h.1, (h.2 (by decide)).1, (h.2 (by decide)).2⟩

/-- Claim C7 (confirmed): save_sessions followed by load_saved_sessions on a
fresh instance reproduces the identical record set, and therefore the same
listing ordered by ascending numeric account id, provided every record is
keyed by its own account id with its credential stored at the canonical path
and every credential artifact still exists on disk. -/
theorem c7_save_load_roundtrip (dir : List Char) (fe : List Char → Bool) (reg : Registry)
    (hwf : ∀ kr ∈ reg, kr.2.user_id = kr.1 ∧ kr.2.session_path = sessionPath dir kr.1)
    (hfe : ∀ kr ∈ reg, fe (sessionPath dir kr.1) = true) :
    loadSavedSessions dir (saveSessions reg) fe = (reg, false) ∧
    listAccounts (loadSavedSessions dir (saveSessions reg) fe).1 = listAccounts reg := by
  have h := c7_roundtrip_aux dir fe reg hwf hfe
  constructor
  · simp only [loadSavedSessions, loadBody, saveSessions, h]
  · simp only [loadSavedSessions, loadBody, saveSessions, h]

theorem c7_save_load_roundtrip_witness :
    loadSavedSessions ("D".toList) (saveSessions wReg) wAllExist = (wReg, false) ∧
    listAccounts (loadSavedSessions ("D".toList) (saveSessions wReg) wAllExist).1
      = listAccounts wReg :=
  c7_save_load_roundtrip ("D".toList) wAllExist wReg (by decide) (by decide)

theorem c10_fetch_limit_witness :
    getTelegramMessages c10History true
      = getTelegramMessages (c10History.take (if true then 3 else 10)) true ∧
    getTelegramMessages c10History true = OtpOutput.noOtpMessage :=
  ⟨(c10_fetch_limit c10History true).1, (c10_fetch_limit c10History true).2 (by decide)⟩

/-- Claim C8 (confirmed): with latest-only set the scan stops after the first
successful extraction, so at most one code is returned; the patterns are
tried in their fixed order and the message scan stops at the first pattern
that yields an accepted match — for every position in the pattern list, when
all earlier patterns fail to match and that pattern matches (and, for the
bare fallback, its keyword gate passes), the extracted code is that
pattern's code, regardless of what later patterns would match; and the
single message "Your login code: 48213" at time t1 yields exactly the code
48213 observed at t1. -/
theorem c8_first_match_latest_only (history : List (Option SvcMsg)) (t1 : Nat)
    (l : List (List Char × Nat)) (content c : List Char) :
    (getTelegramMessages history true = OtpOutput.codes l → l.length ≤ 1) ∧
    ((searchToks patLoginCode content = some c → processMessage content = some c) ∧
     (searchToks patLoginCode content = none →
        searchToks patKodeMasuk content = some c → processMessage content = some c) ∧
     (searchToks patLoginCode content = none →
        searchToks patKodeMasuk content = none →
        searchToks patYourCode content = some c → processMessage content = some c) ∧
     (searchToks patLoginCode content = none →
        searchToks patKodeMasuk content = none →
        searchToks patYourCode content = none →
        searchToks patKode content = some c → processMessage content = some c) ∧
     (searchToks patLoginCode content = none →
        searchToks patKodeMasuk content = none →
        searchToks patYourCode content = none →
        searchToks patKode content = none →
        searchToks patCode content = some c → processMessage content = some c) ∧
     (searchToks patLoginCode content = none →
        searchToks patKodeMasuk content = none →
        searchToks patYourCode content = none →
        searchToks patKode content = none →
        searchToks patCode content = none →
        searchToks patBare content = some c →
        hasOtpTerm content = true → processMessage content = some c)) ∧
    getTelegramMessages [some ⟨some ("Your login code: 48213".toList), t1⟩] true
      = OtpOutput.codes [("48213".toList, t1)] := by
  refine ⟨?_, ⟨?_, ?_, ?_, ?_, ?_, ?_⟩, ?_⟩
  · intro h
    rw [show getTelegramMessages history true
        = (if (scanMessages true (history.take 3)).isEmpty = true then OtpOutput.noOtpMessage
           else OtpOutput.codes (scanMessages true (history.take 3))) from rfl] at h
    split at h
    · exact OtpOutput.noConfusion h
    · rw [OtpOutput.codes.injEq] at h
      rw [← h]
      exact scan_latest_len _
  · intro h1
    simp [processMessage, tryPatterns, otpPatterns, h1]
  · intro h1 h2
    simp [processMessage, tryPatterns, otpPatterns, h1, h2]
  · intro h1 h2 h3
    simp [processMessage, tryPatterns, otpPatterns, h1, h2, h3]
  · intro h1 h2 h3 h4
    simp [processMessage, tryPatterns, otpPatterns, h1, h2, h3, h4]
  · intro h1 h2 h3 h4 h5
    simp [processMessage, tryPatterns, otpPatterns, h1, h2, h3, h4, h5]
  · intro h1 h2 h3 h4 h5 h6 hk
    simp [processMessage, tryPatterns, otpPatterns, h1, h2, h3, h4, h5, h6, hk]
  · rfl

theorem c8_first_match_latest_only_witness :
    ([("48213".toList, (5 : Nat))].length ≤ 1) ∧
    processMessage ("Your login code: 48213".toList) = some ("48213".toList) ∧
    processMessage ("Kode 11111 code 22222".toList) = some ("11111".toList) ∧
    searchToks patCode ("Kode 11111 code 22222".toList) = some ("22222".toList) ∧
    getTelegramMessages [some ⟨some ("Your login code: 48213".toList), 5⟩] true
      = OtpOutput.codes [("48213".toList, 5)] := by
  have h := c8_first_match_latest_only
    [some ⟨some ("Your login code: 48213".toList), 5⟩] 5
    [("48213".toList, 5)] ("Your login code: 48213".toList) ("48213".toList)
  have h2 := c8_first_match_latest_only [] 0 []
    ("Kode 11111 code 22222".toList) ("11111".toList)
  refine ⟨h.1 h.2.2, h.2.1.1 (by decide), ?_, by decide, h.2.2⟩
  exact h2.2.1.2.2.2.1 (by decide) (by decide) (by decide) (by decide)

/-- Claim C9 (confirmed): a sender outside the fixed admin allow-list gets
exactly the denial response from every message handler and the alert denial
from the callback handler, with no further action produced; an allow-listed
sender never receives a denial. -/
theorem c9_admin_gate (adminIds : List Int) (sender : Int) (data : List Char)
    (isZip : Bool) :
    (isAdminId adminIds sender = false →
      startHandler adminIds sender = [BotAction.respondDenial] ∧
      accountsHandler adminIds sender = [BotAction.respondDenial] ∧
      fileHandler adminIds sender isZip = [BotAction.respondDenial] ∧
      callbackHandler adminIds sender data = [BotAction.answerDenialAlert]) ∧
    (isAdminId adminIds sender = true →
      BotAction.respondDenial ∉ startHandler adminIds sender ∧
      BotAction.respondDenial ∉ accountsHandler adminIds sender ∧
      BotAction.respondDenial ∉ fileHandler adminIds sender isZip ∧
      BotAction.answerDenialAlert ∉ callbackHandler adminIds sender data) := by
  constructor
  · intro h
    refine ⟨?_, ?_, ?_, ?_⟩ <;>
      simp [startHandler, accountsHandler, fileHandler, callbackHandler, h]
  · intro h
    refine ⟨?_, ?_, ?_, ?_⟩
    · simp [startHandler, h]
    · simp [accountsHandler, h]
    · unfold fileHandler
      rw [h]
      split <;> simp_all
    · unfold callbackHandler
      rw [h]
      simp only [Bool.not_true, Bool.false_eq_true, if_false]
      repeat' split
      all_goals intro hc
      all_goals
        first
          | exact List.not_mem_nil _ hc
          | (rw [List.mem_singleton] at hc; exact BotAction.noConfusion hc)

theorem c9_admin_gate_witness :
    (startHandler [5] 7 = [BotAction.respondDenial] ∧
      accountsHandler [5] 7 = [BotAction.respondDenial] ∧
      fileHandler [5] 7 true = [BotAction.respondDenial] ∧
      callbackHandler [5] 7 ("getotp_1".toList) = [BotAction.answerDenialAlert]) ∧
    (BotAction.respondDenial ∉ startHandler [5] 5 ∧
      BotAction.respondDenial ∉ accountsHandler [5] 5 ∧
      BotAction.respondDenial ∉ fileHandler [5] 5 true ∧
      BotAction.answerDenialAlert ∉ callbackHandler [5] 5 ("getotp_1".toList)) :=
  ⟨(c9_admin_gate [5] 7 ("getotp_1".toList) true).1 (by decide),
   (c9_admin_gate [5] 5 ("getotp_1".toList) true).2 (by decide)⟩

end Tg
